import Mathlib

/-!
# Verification of the RayParticle3D particle system

A shallow embedding of `src/RayParticle3D.h` (raylib-based 3D particle
system). Conventions of the embedding:

* C `float` arithmetic is modelled by exact rational arithmetic `ℚ`
  (the idealized real semantics the design reasons in).
* The transcendental C library functions `cosf`, `sinf`, `sqrtf` and the
  constant `DEG2RAD` are external collaborators; they are modelled as an
  oracle record `MathEnv` threaded through the definitions. Theorems
  quantify over the oracle; concrete witnesses instantiate it with an
  exact model (`ratSqrt` is exact on the perfect squares that arise).
* The random source (`GetRandomValue`) is external; every call site
  receives its drawn value explicitly (`InitSamples` collects the six
  normalized draws one `Particle::Init` performs; `Burst` receives the
  drawn burst amount).
* `std::vector<Particle>` is a `List Particle`; the `std::for_each` pool
  traversal is modelled by its sequential elaboration (slot by slot in
  index order), which is the functional semantics of the loop body.
* Casts: `static_cast<size_t>` / `static_cast<unsigned char>` of a
  nonnegative float truncate toward zero, i.e. `Int.floor ∘ ·` then
  `Int.toNat`; the C `int` drawn for a burst amount converts to `size_t`
  modulo `2^64`.
-/

/-- 3D vector of rationals, modelling raylib `Vector3`. -/
structure Vec3 where
  x : ℚ
  y : ℚ
  z : ℚ
deriving DecidableEq, Repr

/-- raymath `Vector3Add`. -/
def Vector3Add (a b : Vec3) : Vec3 := ⟨a.x + b.x, a.y + b.y, a.z + b.z⟩

/-- raymath `Vector3Subtract`. -/
def Vector3Subtract (a b : Vec3) : Vec3 := ⟨a.x - b.x, a.y - b.y, a.z - b.z⟩

/-- raymath `Vector3Scale`. -/
def Vector3Scale (v : Vec3) (s : ℚ) : Vec3 := ⟨v.x * s, v.y * s, v.z * s⟩

/-- Oracle for the float math library: `cosf`, `sinf`, `sqrtf`, `DEG2RAD`.
The embedding is parametric in it; witnesses use an exact instance. -/
structure MathEnv where
  tcos : ℚ → ℚ
  tsin : ℚ → ℚ
  sqrt : ℚ → ℚ
  deg2rad : ℚ

/-- Exact square root for rationals whose numerator and denominator are
perfect squares (all concrete inputs in this development); used to
instantiate `MathEnv.sqrt` in witnesses. -/
def ratSqrt (q : ℚ) : ℚ := (Nat.sqrt q.num.toNat : ℚ) / (Nat.sqrt q.den : ℚ)

/-- raymath `Vector3Normalize`: scale by the inverse length unless the
length is zero (then the vector is returned unchanged). -/
def Vector3Normalize (env : MathEnv) (v : Vec3) : Vec3 :=
  let length := env.sqrt (v.x * v.x + v.y * v.y + v.z * v.z)
  if length = 0 then v else ⟨v.x / length, v.y / length, v.z / length⟩

/-- raymath `Vector3Distance`. -/
def Vector3Distance (env : MathEnv) (a b : Vec3) : ℚ :=
  let d := Vector3Subtract b a
  env.sqrt (d.x * d.x + d.y * d.y + d.z * d.z)

/-- `struct FloatRange { float min, max; }`. -/
structure FloatRange where
  min : ℚ
  max : ℚ
deriving DecidableEq, Repr

/-- `FloatRange::RandomValue`: `(rand / RAND_MAX) * (max - min) + min`,
where `u` models the normalized draw `rand / RAND_MAX ∈ [0, 1]`. -/
def FloatRange.RandomValue (r : FloatRange) (u : ℚ) : ℚ :=
  u * (r.max - r.min) + r.min

/-- `struct IntRange { int min, max; }`. -/
structure IntRange where
  min : ℤ
  max : ℤ
deriving DecidableEq, Repr

/-- raylib `Color`: four `unsigned char` channels. -/
structure Color where
  r : ℕ
  g : ℕ
  b : ℕ
  a : ℕ
deriving DecidableEq, Repr

/-- `struct EmitterConfig`. The opaque graphics fields (`blendMode` as a
tag, the `Model` handle) carry no simulation state; the model handle is
omitted as an external resource. -/
structure EmitterConfig where
  direction : Vec3
  velocity : FloatRange
  directionAngle : FloatRange
  velocityAngle : FloatRange
  offset : FloatRange
  originAcceleration : FloatRange
  age : FloatRange
  burst : IntRange
  capacity : ℕ
  emissionRate : ℕ
  origin : Vec3
  externalAcceleration : Vec3
  startColor : Color
  endColor : Color
  blendMode : ℕ
  gravity : ℚ
  collision : Bool

/-- The six normalized random draws consumed by one `Particle::Init`
call, in call order. -/
structure InitSamples where
  uDirectionAngle : ℚ
  uVelocityAngle : ℚ
  uVelocity : ℚ
  uOffset : ℚ
  uOriginAcceleration : ℚ
  uTtl : ℚ

/-- `struct Particle`. -/
structure Particle where
  origin : Vec3
  position : Vec3
  velocity : Vec3
  externalAcceleration : Vec3
  originAcceleration : ℚ
  age : ℚ
  ttl : ℚ
  scale : ℚ
  active : Bool
deriving DecidableEq, Repr

/-- A value-initialized (zeroed) particle slot, as produced by
`particles.resize(capacity)` at emitter construction. -/
def Particle.zero : Particle :=
  ⟨⟨0, 0, 0⟩, ⟨0, 0, 0⟩, ⟨0, 0, 0⟩, ⟨0, 0, 0⟩, 0, 0, 0, 0, false⟩

/-- `Particle::IsExpired`: `age > ttl` (strict). -/
def Particle.IsExpired (p : Particle) : Bool := p.age > p.ttl

/-- `Particle::Rotate`: two sequential axis rotations (about Y then X),
angles in degrees converted by `DEG2RAD`, trig via the oracle. -/
def Particle.Rotate (env : MathEnv) (v : Vec3) (angleX angleY : ℚ) : Vec3 :=
  let radY := angleY * env.deg2rad
  let rotatedY : Vec3 :=
    ⟨env.tcos radY * v.x + env.tsin radY * v.z,
     v.y,
     -(env.tsin radY) * v.x + env.tcos radY * v.z⟩
  let radX := angleX * env.deg2rad
  ⟨rotatedY.x,
   env.tcos radX * rotatedY.y - env.tsin radX * rotatedY.z,
   env.tsin radX * rotatedY.y + env.tcos radX * rotatedY.z⟩

/-- `Particle::Init(cfg)`: reset age, capture the emitter origin, sample
direction/velocity/offset/attraction/ttl, activate. -/
def Particle.Init (env : MathEnv) (cfg : EmitterConfig) (s : InitSamples) : Particle :=
  let randomAngleX := cfg.directionAngle.RandomValue s.uDirectionAngle
  let randomAngleY := cfg.velocityAngle.RandomValue s.uVelocityAngle
  let randomDir := Particle.Rotate env cfg.direction randomAngleX randomAngleY
  { origin := cfg.origin
    position := Vector3Add cfg.origin (Vector3Scale randomDir (cfg.offset.RandomValue s.uOffset))
    velocity := Vector3Scale randomDir (cfg.velocity.RandomValue s.uVelocity)
    externalAcceleration := cfg.externalAcceleration
    originAcceleration := cfg.originAcceleration.RandomValue s.uOriginAcceleration
    age := 0
    ttl := cfg.age.RandomValue s.uTtl
    scale := 1
    active := true }

/-- `Particle::Update(dt, cfg)`: age advance and expiry check, then
gravity, attraction toward the particle's stored `origin`, external
acceleration, semi-implicit Euler integration, optional ground bounce,
and the distance-based scale (distance to the live `cfg.origin`). -/
def Particle.Update (env : MathEnv) (dt : ℚ) (cfg : EmitterConfig) (p : Particle) : Particle :=
  if !p.active then p
  else
    let p1 := { p with age := p.age + dt }
    if p1.IsExpired then { p1 with active := false }
    else
      let vel1 : Vec3 := ⟨p1.velocity.x, p1.velocity.y - cfg.gravity * dt, p1.velocity.z⟩
      let toOrigin := Vector3Normalize env (Vector3Subtract p1.origin p1.position)
      let vel2 := Vector3Add vel1 (Vector3Scale toOrigin (p1.originAcceleration * dt))
      let vel3 := Vector3Add vel2 (Vector3Scale p1.externalAcceleration dt)
      let pos1 := Vector3Add p1.position (Vector3Scale vel3 dt)
      let bounce := cfg.collision && decide (pos1.y ≤ 0)
      let pos2 := if bounce then { pos1 with y := 0 } else pos1
      let vel4 := if bounce then { vel3 with y := vel3.y * (-(1 : ℚ) / 2) } else vel3
      let newScale := 1 / (Vector3Distance env pos2 cfg.origin * (1 / 10) + 1)
      { p1 with velocity := vel4, position := pos2, scale := newScale }

/-- Number of active slots in a pool. -/
def countActive : List Particle → ℕ
  | [] => 0
  | p :: ps => (if p.active then 1 else 0) + countActive ps

/-- Number of inactive slots in a pool. -/
def countInactive : List Particle → ℕ
  | [] => 0
  | p :: ps => (if p.active then 0 else 1) + countInactive ps

/-- C conversion of an `int` to `size_t`: reduction modulo `2^64`. -/
def size_tOfInt (a : ℤ) : ℕ := (a % (2 ^ 64 : ℤ)).toNat

/-- Truncation toward zero of a nonnegative rational to a natural
number: the model of C float-to-unsigned casts on the in-range
nonnegative values this code produces. -/
def ratTruncToNat (q : ℚ) : ℕ := q.num.toNat / q.den

/-- `class Emitter` state: configuration, fractional spawn accumulator,
emitting flag, particle pool. -/
structure Emitter where
  config : EmitterConfig
  mustEmit : ℚ
  isEmitting : Bool
  particles : List Particle

/-- `Emitter::Emitter(cfg)`: normalize the direction, start not
emitting with a zero accumulator, and allocate `capacity`
value-initialized (inactive) slots via `particles.resize`. -/
def Emitter.new (env : MathEnv) (cfg : EmitterConfig) : Emitter :=
  let cfg2 := { cfg with direction := Vector3Normalize env cfg.direction }
  { config := cfg2
    mustEmit := 0
    isEmitting := false
    particles := List.replicate cfg2.capacity Particle.zero }

/-- `Emitter::Start`. -/
def Emitter.Start (e : Emitter) : Emitter := { e with isEmitting := true }

/-- `Emitter::Stop`. -/
def Emitter.Stop (e : Emitter) : Emitter := { e with isEmitting := false }

/-- The scan loop of `Emitter::Burst`: walk the pool in index order; on
each inactive slot run `Init` (drawing the `emitted`-th sample pack) and
return as soon as `++emitted >= amount` (the amount already converted to
`size_t`). -/
def Emitter.burstLoop (env : MathEnv) (cfg : EmitterConfig) (samp : ℕ → InitSamples)
    (amountU : ℕ) : List Particle → ℕ → List Particle
  | [], _ => []
  | p :: ps, emitted =>
    if p.active then p :: Emitter.burstLoop env cfg samp amountU ps emitted
    else
      let p2 := Particle.Init env cfg (samp emitted)
      if emitted + 1 ≥ amountU then p2 :: ps
      else p2 :: Emitter.burstLoop env cfg samp amountU ps (emitted + 1)

/-- `Emitter::Burst()`: draw `amount` from the burst range (the drawn
`int` is passed in; the comparison against `size_t emitted` converts it
modulo `2^64`) and run the scan loop. -/
def Emitter.Burst (env : MathEnv) (amount : ℤ) (samp : ℕ → InitSamples) (e : Emitter) : Emitter :=
  { e with particles := Emitter.burstLoop env e.config samp (size_tOfInt amount) e.particles 0 }

/-- The pool traversal of `Emitter::Update`, in its sequential (index
order) elaboration: active slots are physics-updated and counted; while
emitting with remaining budget, inactive slots are initialized, updated
for the same `dt`, the budget and accumulator decremented, and counted.
Returns the traversed pool, the final accumulator, and the counter. -/
def Emitter.updateLoop (env : MathEnv) (cfg : EmitterConfig) (dt : ℚ) (isEmitting : Bool)
    (samp : ℕ → InitSamples) :
    List Particle → ℕ → ℚ → ℕ → ℕ → List Particle × ℚ × ℕ
  | [], _, mustEmit, counter, _ => ([], mustEmit, counter)
  | p :: ps, emitNow, mustEmit, counter, sidx =>
    if p.active then
      let p2 := Particle.Update env dt cfg p
      let r := Emitter.updateLoop env cfg dt isEmitting samp ps emitNow mustEmit (counter + 1) sidx
      (p2 :: r.1, r.2)
    else if isEmitting && decide (0 < emitNow) then
      let p2 := Particle.Update env dt cfg (Particle.Init env cfg (samp sidx))
      let r := Emitter.updateLoop env cfg dt isEmitting samp ps (emitNow - 1) (mustEmit - 1)
        (counter + 1) (sidx + 1)
      (p2 :: r.1, r.2)
    else
      let r := Emitter.updateLoop env cfg dt isEmitting samp ps emitNow mustEmit counter sidx
      (p :: r.1, r.2)

/-- `Emitter::Update(dt)`: if emitting, grow the accumulator by
`dt * emissionRate` and truncate it (`static_cast<size_t>`) to get the
spawn budget; traverse the pool; return the counter and the new state. -/
def Emitter.Update (env : MathEnv) (dt : ℚ) (samp : ℕ → InitSamples) (e : Emitter) :
    ℕ × Emitter :=
  let mustEmit := if e.isEmitting then e.mustEmit + dt * (e.config.emissionRate : ℚ) else e.mustEmit
  let emitNow := if e.isEmitting then ratTruncToNat mustEmit else 0
  let r := Emitter.updateLoop env e.config dt e.isEmitting samp e.particles emitNow mustEmit 0 0
  (r.2.2, { e with particles := r.1, mustEmit := r.2.1 })

/-- Model of `static_cast<unsigned char>` on the nonnegative in-range
floats produced by `LinearFade`: truncation toward zero. -/
def castUChar (q : ℚ) : ℕ := ratTruncToNat q

/-- One channel of `Emitter::LinearFade`: `(c2 - c1) * fraction + c1`
in `int`-promoted then `float` arithmetic. -/
def fadeChannel (c1 c2 : ℕ) (fraction : ℚ) : ℚ :=
  ((c2 : ℚ) - (c1 : ℚ)) * fraction + (c1 : ℚ)

/-- `Emitter::LinearFade`: per-channel linear interpolation, each
channel cast back to `unsigned char`. -/
def Emitter.LinearFade (c1 c2 : Color) (fraction : ℚ) : Color :=
  ⟨castUChar (fadeChannel c1.r c2.r fraction),
   castUChar (fadeChannel c1.g c2.g fraction),
   castUChar (fadeChannel c1.b c2.b fraction),
   castUChar (fadeChannel c1.a c2.a fraction)⟩

/-- The tint `Emitter::Draw` passes to `DrawModel` for an active
particle: `LinearFade(startColor, endColor, age / ttl)`. -/
def Emitter.drawColor (cfg : EmitterConfig) (p : Particle) : Color :=
  Emitter.LinearFade cfg.startColor cfg.endColor (p.age / p.ttl)

/-- One public lifecycle call on an emitter, with the random draws each
call consumes supplied explicitly. -/
inductive EmitterOp where
  | start : EmitterOp
  | stop : EmitterOp
  | burst (amount : ℤ) (samp : ℕ → InitSamples) : EmitterOp
  | update (dt : ℚ) (samp : ℕ → InitSamples) : EmitterOp

/-- Run one lifecycle call (discarding `Update`'s returned counter). -/
def Emitter.runOp (env : MathEnv) (e : Emitter) : EmitterOp → Emitter
  | EmitterOp.start => e.Start
  | EmitterOp.stop => e.Stop
  | EmitterOp.burst amount samp => Emitter.Burst env amount samp e
  | EmitterOp.update dt samp => (Emitter.Update env dt samp e).2

/-- Run a sequence of lifecycle calls. -/
def Emitter.runOps (env : MathEnv) (e : Emitter) : List EmitterOp → Emitter
  | [] => e
  | op :: rest => Emitter.runOps env (Emitter.runOp env e op) rest

/-- Run a sequence of lifecycle calls, collecting the value returned by
each `Update` call in order. -/
def Emitter.runTrace (env : MathEnv) : Emitter → List EmitterOp → Emitter × List ℕ
  | e, [] => (e, [])
  | e, EmitterOp.update dt samp :: rest =>
    let r := Emitter.Update env dt samp e
    let t := Emitter.runTrace env r.2 rest
    (t.1, r.1 :: t.2)
  | e, op :: rest => Emitter.runTrace env (Emitter.runOp env e op) rest

/-- `True` of a call sequence in which no `Burst` occurs and every
`Update` happens while the emitting flag (tracked from `flag`) is off:
`Start` was never called, or `Stop` intervened before any `Update`. -/
def neverEmittingFrom : Bool → List EmitterOp → Bool
  | _, [] => true
  | _, EmitterOp.start :: rest => neverEmittingFrom true rest
  | _, EmitterOp.stop :: rest => neverEmittingFrom false rest
  | _, EmitterOp.burst _ _ :: _ => false
  | flag, EmitterOp.update _ _ :: rest => !flag && neverEmittingFrom flag rest

/-- The burst scan as the spec words it: walk the slots in ascending
index order and initialize the inactive ones encountered until `k`
slots have been initialized or the pool is exhausted, leaving every
other slot untouched. Used to state the refinement for `Burst`. -/
def Emitter.burstSpecScan (env : MathEnv) (cfg : EmitterConfig) (samp : ℕ → InitSamples)
    (k : ℕ) : List Particle → ℕ → List Particle
  | [], _ => []
  | p :: ps, spawned =>
    if p.active then p :: Emitter.burstSpecScan env cfg samp k ps spawned
    else if spawned < k then
      Particle.Init env cfg (samp spawned) :: Emitter.burstSpecScan env cfg samp k ps (spawned + 1)
    else p :: Emitter.burstSpecScan env cfg samp k ps spawned

/-- Spawn quota a pool traversal can consume: the budget `emitNow`
capped by the inactive slots, and zero when not emitting. -/
def spawnQuota (isEmitting : Bool) (emitNow : ℕ) (ps : List Particle) : ℕ :=
  if isEmitting then min emitNow (countInactive ps) else 0

/-- Number of particles one `Emitter::Update` call spawns: its returned
counter minus the slots already active before the call. -/
def Emitter.spawnCount (env : MathEnv) (dt : ℚ) (samp : ℕ → InitSamples) (e : Emitter) : ℕ :=
  (Emitter.Update env dt samp e).1 - countActive e.particles

/-- The velocity `Particle::Update` has accumulated just before the
collision branch (gravity, attraction toward the stored spawn origin,
external acceleration); stated as a standalone function to phrase the
collision and attraction properties. -/
def Particle.integratedVelocity (env : MathEnv) (dt : ℚ) (cfg : EmitterConfig)
    (p : Particle) : Vec3 :=
  Vector3Add
    (Vector3Add ⟨p.velocity.x, p.velocity.y - cfg.gravity * dt, p.velocity.z⟩
      (Vector3Scale (Vector3Normalize env (Vector3Subtract p.origin p.position))
        (p.originAcceleration * dt)))
    (Vector3Scale p.externalAcceleration dt)

/-- The position `Particle::Update` integrates just before the collision
branch. -/
def Particle.integratedPosition (env : MathEnv) (dt : ℚ) (cfg : EmitterConfig)
    (p : Particle) : Vec3 :=
  Vector3Add p.position (Vector3Scale (Particle.integratedVelocity env dt cfg p) dt)

/-- Concrete math oracle for witnesses: exact on the inputs they use
(`ratSqrt` is exact on perfect squares; the trig draws are never
consulted on nonzero angles there). -/
def envExact : MathEnv := ⟨fun _ => 1, fun _ => 0, ratSqrt, 0⟩

/-- Concrete configuration for witnesses: capacity 2, emission rate 1,
no gravity, no collision, degenerate ranges. -/
def cfgBase : EmitterConfig :=
  { direction := ⟨0, 0, 0⟩
    velocity := ⟨0, 0⟩
    directionAngle := ⟨0, 0⟩
    velocityAngle := ⟨0, 0⟩
    offset := ⟨0, 0⟩
    originAcceleration := ⟨0, 0⟩
    age := ⟨1, 1⟩
    burst := ⟨0, 0⟩
    capacity := 2
    emissionRate := 1
    origin := ⟨0, 0, 0⟩
    externalAcceleration := ⟨0, 0, 0⟩
    startColor := ⟨255, 150, 0, 255⟩
    endColor := ⟨0, 50, 10, 0⟩
    blendMode := 0
    gravity := 0
    collision := false }

/-- Zero random draws for witnesses. -/
def samp0 : InitSamples := ⟨0, 0, 0, 0, 0, 0⟩

/-- Concrete emitting 2-slot emitter for the split-law witness. -/
def eEmit : Emitter := Emitter.Start (Emitter.new envExact cfgBase)

/-- Concrete active particle whose stored spawn origin `(1,0,0)` sits on
the opposite side of its position from a moved emitter origin. -/
def pAttract : Particle :=
  { origin := ⟨1, 0, 0⟩, position := ⟨0, 0, 0⟩, velocity := ⟨0, 0, 0⟩,
    externalAcceleration := ⟨0, 0, 0⟩, originAcceleration := 1, age := 0, ttl := 10,
    scale := 1, active := true }

/-- Concrete active particle sitting exactly at its time-to-live. -/
def pBoundary : Particle :=
  { origin := ⟨0, 0, 0⟩, position := ⟨0, 0, 0⟩, velocity := ⟨0, 0, 0⟩,
    externalAcceleration := ⟨0, 0, 0⟩, originAcceleration := 0, age := 1, ttl := 1,
    scale := 1, active := true }

/-- Concrete active particle falling straight down from height 0. -/
def pFall : Particle :=
  { origin := ⟨0, 0, 0⟩, position := ⟨0, 0, 0⟩, velocity := ⟨0, -1, 0⟩,
    externalAcceleration := ⟨0, 0, 0⟩, originAcceleration := 0, age := 0, ttl := 10,
    scale := 1, active := true }

/-- Concrete active particle that expires on a 2-second step. -/
def pExpireSoon : Particle :=
  { origin := ⟨0, 0, 0⟩, position := ⟨0, 0, 0⟩, velocity := ⟨0, 0, 0⟩,
    externalAcceleration := ⟨0, 0, 0⟩, originAcceleration := 0, age := 0, ttl := 1,
    scale := 1, active := true }

/-- Concrete one-slot emitter holding `pExpireSoon`, not emitting. -/
def eOne : Emitter :=
  { config := cfgBase, mustEmit := 0, isEmitting := false, particles := [pExpireSoon] }

theorem countActive_add_countInactive (ps : List Particle) :
    countActive ps + countInactive ps = ps.length := by
  induction ps with
  | nil => rfl
  | cons p ps ih =>
    simp only [countActive, countInactive, List.length_cons]
    by_cases hp : p.active <;> simp [hp] <;> omega

theorem spawnQuota_false (en : ℕ) (ps : List Particle) : spawnQuota false en ps = 0 := rfl

theorem spawnQuota_cons_active (em : Bool) (en : ℕ) (p : Particle) (ps : List Particle)
    (hp : p.active = true) : spawnQuota em en (p :: ps) = spawnQuota em en ps := by
  simp [spawnQuota, countInactive, hp]

theorem spawnQuota_cons_spawn (en : ℕ) (p : Particle) (ps : List Particle)
    (hp : p.active = false) (hen : 0 < en) :
    spawnQuota true en (p :: ps) = spawnQuota true (en - 1) ps + 1 := by
  simp [spawnQuota, countInactive, hp]
  omega

theorem spawnQuota_cons_zero (em : Bool) (p : Particle) (ps : List Particle) :
    spawnQuota em 0 (p :: ps) = 0 := by
  simp [spawnQuota]

theorem updateLoop_length (env : MathEnv) (cfg : EmitterConfig) (dt : ℚ) (em : Bool)
    (samp : ℕ → InitSamples) (ps : List Particle) (en : ℕ) (m : ℚ) (c si : ℕ) :
    (Emitter.updateLoop env cfg dt em samp ps en m c si).1.length = ps.length := by
  induction ps generalizing en m c si with
  | nil => rfl
  | cons p ps ih =>
    by_cases hp : p.active = true
    · simp [Emitter.updateLoop, hp, ih]
    · by_cases hb : (em && decide (0 < en)) = true
      · simp [Emitter.updateLoop, hp, hb, ih]
      · simp [Emitter.updateLoop, hp, hb, ih]

theorem updateLoop_counter (env : MathEnv) (cfg : EmitterConfig) (dt : ℚ) (em : Bool)
    (samp : ℕ → InitSamples) (ps : List Particle) (en : ℕ) (m : ℚ) (c si : ℕ) :
    (Emitter.updateLoop env cfg dt em samp ps en m c si).2.2 =
      c + countActive ps + spawnQuota em en ps := by
  induction ps generalizing en m c si with
  | nil => simp [Emitter.updateLoop, countActive, countInactive, spawnQuota]
  | cons p ps ih =>
    by_cases hp : p.active = true
    · rw [spawnQuota_cons_active em en p ps hp]
      simp [Emitter.updateLoop, hp, ih, countActive]
      omega
    · have hp' : p.active = false := by simpa using hp
      by_cases hb : (em && decide (0 < en)) = true
      · have hb2 := hb
        simp only [Bool.and_eq_true, decide_eq_true_eq] at hb2
        obtain ⟨hem, hen'⟩ := hb2
        subst hem
        rw [spawnQuota_cons_spawn en p ps hp' hen']
        simp [Emitter.updateLoop, hp, hb, ih, countActive, hp']
        omega
      · have : em = false ∨ en = 0 := by
          revert hb
          cases em <;> simp_all
        simp [Emitter.updateLoop, hp, hb, ih, countActive, hp']
        rcases this with hem | hen0
        · subst hem
          simp [spawnQuota_false]
        · subst hen0
          rw [spawnQuota_cons_zero]
          simp [spawnQuota]

theorem updateLoop_mustEmit (env : MathEnv) (cfg : EmitterConfig) (dt : ℚ) (em : Bool)
    (samp : ℕ → InitSamples) (ps : List Particle) (en : ℕ) (m : ℚ) (c si : ℕ) :
    (Emitter.updateLoop env cfg dt em samp ps en m c si).2.1 =
      m - (spawnQuota em en ps : ℚ) := by
  induction ps generalizing en m c si with
  | nil => simp [Emitter.updateLoop, spawnQuota, countInactive]
  | cons p ps ih =>
    by_cases hp : p.active = true
    · rw [spawnQuota_cons_active em en p ps hp]
      simp [Emitter.updateLoop, hp, ih]
    · have hp' : p.active = false := by simpa using hp
      by_cases hb : (em && decide (0 < en)) = true
      · have hb2 := hb
        simp only [Bool.and_eq_true, decide_eq_true_eq] at hb2
        obtain ⟨hem, hen'⟩ := hb2
        subst hem
        rw [spawnQuota_cons_spawn en p ps hp' hen']
        simp [Emitter.updateLoop, hp, hb, ih]
        try push_cast
        try ring
      · have : em = false ∨ en = 0 := by
          revert hb
          cases em <;> simp_all
        simp [Emitter.updateLoop, hp, hb, ih]
        rcases this with hem | hen0
        · subst hem
          simp [spawnQuota_false]
        · subst hen0
          rw [spawnQuota_cons_zero]
          simp [spawnQuota]

theorem updateLoop_activeAfter (env : MathEnv) (cfg : EmitterConfig) (dt : ℚ) (em : Bool)
    (samp : ℕ → InitSamples) (ps : List Particle) (en : ℕ) (m : ℚ) (c si : ℕ) :
    countActive (Emitter.updateLoop env cfg dt em samp ps en m c si).1 ≤
      countActive ps + spawnQuota em en ps := by
  induction ps generalizing en m c si with
  | nil => simp [Emitter.updateLoop, countActive, spawnQuota]
  | cons p ps ih =>
    by_cases hp : p.active = true
    · rw [spawnQuota_cons_active em en p ps hp]
      simp only [Emitter.updateLoop, hp, if_true, countActive]
      have := ih en m (c + 1) si
      by_cases hq : (Particle.Update env dt cfg p).active = true <;> simp [hq, countActive, hp] <;>
        omega
    · have hp' : p.active = false := by simpa using hp
      by_cases hb : (em && decide (0 < en)) = true
      · have hb2 := hb
        simp only [Bool.and_eq_true, decide_eq_true_eq] at hb2
        obtain ⟨hem, hen'⟩ := hb2
        subst hem
        rw [spawnQuota_cons_spawn en p ps hp' hen']
        simp only [Emitter.updateLoop, hp, hb, if_true, if_false, countActive]
        have := ih (en - 1) (m - 1) (c + 1) (si + 1)
        by_cases hq : (Particle.Update env dt cfg (Particle.Init env cfg (samp si))).active = true <;>
          simp [hq, countActive, hp'] <;> omega
      · have hcases : em = false ∨ en = 0 := by
          revert hb
          cases em <;> simp_all
        simp only [Emitter.updateLoop, hp, hb, if_false, countActive]
        have := ih en m c si
        rcases hcases with hem | hen0
        · subst hem
          simp_all [spawnQuota_false, countActive, hp']
        · subst hen0
          rw [spawnQuota_cons_zero]
          simp_all [spawnQuota, countActive, hp']

theorem updateLoop_idle (env : MathEnv) (cfg : EmitterConfig) (dt : ℚ)
    (samp : ℕ → InitSamples) (ps : List Particle) (en : ℕ) (m : ℚ) (c si : ℕ)
    (hall : ∀ p ∈ ps, p.active = false) :
    Emitter.updateLoop env cfg dt false samp ps en m c si = (ps, m, c) := by
  induction ps generalizing en m c si with
  | nil => rfl
  | cons p ps ih =>
    have hp : p.active = false := hall p (List.mem_cons_self p ps)
    have hrest : ∀ q ∈ ps, q.active = false := fun q hq => hall q (List.mem_cons_of_mem p hq)
    simp [Emitter.updateLoop, hp, ih _ _ _ _ hrest]

theorem Emitter.Update_counter (env : MathEnv) (dt : ℚ) (samp : ℕ → InitSamples) (e : Emitter) :
    (Emitter.Update env dt samp e).1 =
      countActive e.particles +
        spawnQuota e.isEmitting
          (ratTruncToNat (e.mustEmit + dt * (e.config.emissionRate : ℚ))) e.particles := by
  cases hem : e.isEmitting
  · simp [Emitter.Update, hem, updateLoop_counter, spawnQuota]
  · simp [Emitter.Update, hem, updateLoop_counter]

theorem Emitter.Update_length (env : MathEnv) (dt : ℚ) (samp : ℕ → InitSamples) (e : Emitter) :
    (Emitter.Update env dt samp e).2.particles.length = e.particles.length := by
  simp [Emitter.Update, updateLoop_length]

theorem Emitter.Update_mustEmit (env : MathEnv) (dt : ℚ) (samp : ℕ → InitSamples) (e : Emitter)
    (hem : e.isEmitting = true) :
    (Emitter.Update env dt samp e).2.mustEmit =
      e.mustEmit + dt * (e.config.emissionRate : ℚ) -
        (spawnQuota true (ratTruncToNat (e.mustEmit + dt * (e.config.emissionRate : ℚ)))
          e.particles : ℕ) := by
  simp [Emitter.Update, hem, updateLoop_mustEmit]

theorem Emitter.Update_activeAfter (env : MathEnv) (dt : ℚ) (samp : ℕ → InitSamples)
    (e : Emitter) :
    countActive (Emitter.Update env dt samp e).2.particles ≤
      countActive e.particles +
        spawnQuota e.isEmitting
          (ratTruncToNat (e.mustEmit + dt * (e.config.emissionRate : ℚ))) e.particles := by
  cases hem : e.isEmitting
  · have h := updateLoop_activeAfter env e.config dt false samp e.particles 0 e.mustEmit 0 0
    simp only [Emitter.Update, hem, if_false, Bool.false_eq_true]
    simpa [spawnQuota] using h
  · have h := updateLoop_activeAfter env e.config dt true samp e.particles
      (ratTruncToNat (e.mustEmit + dt * (e.config.emissionRate : ℚ)))
      (e.mustEmit + dt * (e.config.emissionRate : ℚ)) 0 0
    simp only [Emitter.Update, hem, if_true]
    simpa using h

theorem Emitter.Update_isEmitting (env : MathEnv) (dt : ℚ) (samp : ℕ → InitSamples)
    (e : Emitter) : (Emitter.Update env dt samp e).2.isEmitting = e.isEmitting := rfl

theorem Emitter.Update_config (env : MathEnv) (dt : ℚ) (samp : ℕ → InitSamples)
    (e : Emitter) : (Emitter.Update env dt samp e).2.config = e.config := rfl

theorem countActive_eq_zero (ps : List Particle) (h : ∀ p ∈ ps, p.active = false) :
    countActive ps = 0 := by
  induction ps with
  | nil => rfl
  | cons p ps ih =>
    have hp := h p (List.mem_cons_self p ps)
    simp [countActive, hp, ih fun q hq => h q (List.mem_cons_of_mem p hq)]

theorem Emitter.Update_idle (env : MathEnv) (dt : ℚ) (samp : ℕ → InitSamples) (e : Emitter)
    (hem : e.isEmitting = false) (hall : ∀ p ∈ e.particles, p.active = false) :
    Emitter.Update env dt samp e = (0, e) := by
  simp only [Emitter.Update, hem, if_false, Bool.false_eq_true]
  rw [updateLoop_idle env e.config dt samp e.particles 0 e.mustEmit 0 0 hall]
  simp only [countActive_eq_zero e.particles hall, Prod.mk.injEq]
  exact ⟨by simp [spawnQuota], by rw [← hem]⟩

theorem burstLoop_length (env : MathEnv) (cfg : EmitterConfig) (samp : ℕ → InitSamples)
    (a : ℕ) (ps : List Particle) (e : ℕ) :
    (Emitter.burstLoop env cfg samp a ps e).length = ps.length := by
  induction ps generalizing e with
  | nil => rfl
  | cons p ps ih =>
    by_cases hp : p.active = true
    · simp [Emitter.burstLoop, hp, ih]
    · by_cases hstop : e + 1 ≥ a
      · simp [Emitter.burstLoop, hp, hstop]
      · simp [Emitter.burstLoop, hp, hstop, ih]

theorem burstLoop_countActive (env : MathEnv) (cfg : EmitterConfig) (samp : ℕ → InitSamples)
    (a : ℕ) (ps : List Particle) (e : ℕ) :
    countActive (Emitter.burstLoop env cfg samp a ps e) =
      countActive ps + min (max (a - e) 1) (countInactive ps) := by
  induction ps generalizing e with
  | nil => simp [Emitter.burstLoop, countActive, countInactive]
  | cons p ps ih =>
    by_cases hp : p.active = true
    · simp [Emitter.burstLoop, hp, ih, countActive, countInactive]
      omega
    · have hp' : p.active = false := by simpa using hp
      by_cases hstop : e + 1 ≥ a
      · simp [Emitter.burstLoop, hp, hstop, countActive, countInactive, hp',
          Particle.Init]
        omega
      · simp [Emitter.burstLoop, hp, hstop, ih, countActive, countInactive, hp',
          Particle.Init]
        omega

theorem burstSpecScan_idle (env : MathEnv) (cfg : EmitterConfig) (samp : ℕ → InitSamples)
    (k : ℕ) (ps : List Particle) (e : ℕ) (h : k ≤ e) :
    Emitter.burstSpecScan env cfg samp k ps e = ps := by
  induction ps with
  | nil => rfl
  | cons p ps ih =>
    by_cases hp : p.active = true
    · simp [Emitter.burstSpecScan, hp, ih]
    · have : ¬e < k := by omega
      simp [Emitter.burstSpecScan, hp, this, ih]

theorem burstLoop_eq_specScan (env : MathEnv) (cfg : EmitterConfig) (samp : ℕ → InitSamples)
    (a : ℕ) (ps : List Particle) (e : ℕ) (h : e < max a 1) :
    Emitter.burstLoop env cfg samp a ps e =
      Emitter.burstSpecScan env cfg samp (max a 1) ps e := by
  induction ps generalizing e with
  | nil => rfl
  | cons p ps ih =>
    by_cases hp : p.active = true
    · simp [Emitter.burstLoop, Emitter.burstSpecScan, hp, ih e h]
    · by_cases hstop : e + 1 ≥ a
      · have hk : max a 1 ≤ e + 1 := by omega
        simp [Emitter.burstLoop, Emitter.burstSpecScan, hp, hstop, h,
          burstSpecScan_idle env cfg samp (max a 1) ps (e + 1) hk]
      · have h2 : e + 1 < max a 1 := by omega
        simp [Emitter.burstLoop, Emitter.burstSpecScan, hp, hstop, h, ih (e + 1) h2]

theorem burstLoop_preserves_active (env : MathEnv) (cfg : EmitterConfig)
    (samp : ℕ → InitSamples) (a : ℕ) (ps : List Particle) (e : ℕ) :
    List.Forall₂ (fun p q => p.active = true → q = p) ps
      (Emitter.burstLoop env cfg samp a ps e) := by
  induction ps generalizing e with
  | nil => exact List.Forall₂.nil
  | cons p ps ih =>
    by_cases hp : p.active = true
    · simp only [Emitter.burstLoop, hp, if_true]
      exact List.Forall₂.cons (fun _ => rfl) (ih e)
    · have hp' : p.active = false := by simpa using hp
      by_cases hstop : e + 1 ≥ a
      · simp only [Emitter.burstLoop, hp, hp', if_false, hstop, if_true, Bool.false_eq_true]
        refine List.Forall₂.cons (fun hc => absurd hc (by simp [hp'])) ?_
        exact (List.forall₂_same).mpr fun q _ _ => rfl
      · simp only [Emitter.burstLoop, hp, hp', if_false, hstop, Bool.false_eq_true]
        exact List.Forall₂.cons (fun hc => absurd hc (by simp [hp'])) (ih (e + 1))

theorem Update_counter_le_length (env : MathEnv) (dt : ℚ) (samp : ℕ → InitSamples)
    (e : Emitter) : (Emitter.Update env dt samp e).1 ≤ e.particles.length := by
  rw [Emitter.Update_counter]
  have h1 : spawnQuota e.isEmitting
      (ratTruncToNat (e.mustEmit + dt * (e.config.emissionRate : ℚ))) e.particles ≤
      countInactive e.particles := by
    unfold spawnQuota
    split
    · exact min_le_right _ _
    · exact Nat.zero_le _
  have h2 := countActive_add_countInactive e.particles
  omega

theorem runOp_length (env : MathEnv) (e : Emitter) (op : EmitterOp) :
    (Emitter.runOp env e op).particles.length = e.particles.length := by
  cases op with
  | start => rfl
  | stop => rfl
  | burst amount samp => simp [Emitter.runOp, Emitter.Burst, burstLoop_length]
  | update dt samp => simp [Emitter.runOp, Emitter.Update_length]

theorem runTrace_length (env : MathEnv) (ops : List EmitterOp) (e : Emitter) :
    (Emitter.runTrace env e ops).1.particles.length = e.particles.length := by
  induction ops generalizing e with
  | nil => rfl
  | cons op rest ih =>
    cases op with
    | start => rw [show Emitter.runTrace env e (EmitterOp.start :: rest) =
        Emitter.runTrace env (Emitter.runOp env e EmitterOp.start) rest from rfl, ih]; rfl
    | stop => rw [show Emitter.runTrace env e (EmitterOp.stop :: rest) =
        Emitter.runTrace env (Emitter.runOp env e EmitterOp.stop) rest from rfl, ih]; rfl
    | burst amount samp =>
      rw [show Emitter.runTrace env e (EmitterOp.burst amount samp :: rest) =
        Emitter.runTrace env (Emitter.runOp env e (EmitterOp.burst amount samp)) rest from rfl,
        ih, runOp_length]
    | update dt samp =>
      have : (Emitter.runTrace env e (EmitterOp.update dt samp :: rest)).1 =
          (Emitter.runTrace env (Emitter.Update env dt samp e).2 rest).1 := rfl
      rw [this, ih, Emitter.Update_length]

theorem runTrace_counts_le (env : MathEnv) (ops : List EmitterOp) (e : Emitter) :
    ∀ c ∈ (Emitter.runTrace env e ops).2, c ≤ e.particles.length := by
  induction ops generalizing e with
  | nil => intro c hc; simp [Emitter.runTrace] at hc
  | cons op rest ih =>
    cases op with
    | start => exact fun c hc => (runOp_length env e EmitterOp.start) ▸ ih _ c hc
    | stop => exact fun c hc => (runOp_length env e EmitterOp.stop) ▸ ih _ c hc
    | burst amount samp =>
      exact fun c hc => (runOp_length env e (EmitterOp.burst amount samp)) ▸ ih _ c hc
    | update dt samp =>
      intro c hc
      have hc' : c = (Emitter.Update env dt samp e).1 ∨
          c ∈ (Emitter.runTrace env (Emitter.Update env dt samp e).2 rest).2 := by
        simpa [Emitter.runTrace] using hc
      rcases hc' with rfl | hc'
      · exact Update_counter_le_length env dt samp e
      · have := ih (Emitter.Update env dt samp e).2 c hc'
        rwa [Emitter.Update_length] at this

theorem runTrace_never_emitting (env : MathEnv) (ops : List EmitterOp) :
    ∀ e : Emitter, neverEmittingFrom e.isEmitting ops = true →
      (∀ p ∈ e.particles, p.active = false) →
      (∀ c ∈ (Emitter.runTrace env e ops).2, c = 0) ∧
        ∀ p ∈ (Emitter.runTrace env e ops).1.particles, p.active = false := by
  induction ops with
  | nil =>
    intro e _ hall
    exact ⟨fun c hc => by simp [Emitter.runTrace] at hc, fun p hp => hall p hp⟩
  | cons op rest ih =>
    intro e h hall
    cases op with
    | start =>
      have h' : neverEmittingFrom true rest = true := by simpa [neverEmittingFrom] using h
      have := ih e.Start (by simpa [Emitter.Start] using h') hall
      simpa [Emitter.runTrace, Emitter.runOp] using this
    | stop =>
      have h' : neverEmittingFrom false rest = true := by simpa [neverEmittingFrom] using h
      have := ih e.Stop (by simpa [Emitter.Stop] using h') hall
      simpa [Emitter.runTrace, Emitter.runOp] using this
    | burst amount samp => simp [neverEmittingFrom] at h
    | update dt samp =>
      have h2 := h
      simp only [neverEmittingFrom, Bool.and_eq_true, Bool.not_eq_true'] at h2
      obtain ⟨hflag, hrest⟩ := h2
      have hidle := Emitter.Update_idle env dt samp e hflag hall
      have hih := ih e hrest hall
      constructor
      · intro c hc
        have hsplit : c = (Emitter.Update env dt samp e).1 ∨
            c ∈ (Emitter.runTrace env (Emitter.Update env dt samp e).2 rest).2 := by
          simpa [Emitter.runTrace] using hc
        rcases hsplit with rfl | hc'
        · rw [hidle]
        · rw [hidle] at hc'
          exact hih.1 c hc'
      · intro p hp
        have hp' : p ∈ (Emitter.runTrace env (Emitter.Update env dt samp e).2 rest).1.particles := by
          simpa [Emitter.runTrace] using hp
        rw [hidle] at hp'
        exact hih.2 p hp'

theorem new_all_inactive (env : MathEnv) (cfg : EmitterConfig) :
    ∀ p ∈ (Emitter.new env cfg).particles, p.active = false := by
  intro p hp
  have := List.eq_of_mem_replicate (by simpa [Emitter.new] using hp)
  rw [this]
  rfl

/-- C1: for every configuration and every sequence of `Start`, `Stop`,
`Burst` and `Update` calls on a freshly constructed emitter, every
`Update` call's returned active-particle count is at most the
configured capacity, and the pool's slot count stays exactly equal to
the capacity for the emitter's whole lifetime (no growth). -/
theorem emitter_capacity_invariant (env : MathEnv) (cfg : EmitterConfig)
    (ops : List EmitterOp) :
    (Emitter.runTrace env (Emitter.new env cfg) ops).1.particles.length = cfg.capacity ∧
      ∀ c ∈ (Emitter.runTrace env (Emitter.new env cfg) ops).2, c ≤ cfg.capacity := by
  have hlen : (Emitter.new env cfg).particles.length = cfg.capacity := by
    simp [Emitter.new]
  constructor
  · rw [runTrace_length, hlen]
  · intro c hc
    exact hlen ▸ runTrace_counts_le env ops (Emitter.new env cfg) c hc

/-- Witness for C1 at a concrete run: a fresh 2-slot emitter updated
once; the slot count stays 2 and the returned count 0 is at most 2. -/
theorem emitter_capacity_invariant_witness :
    (Emitter.runTrace envExact (Emitter.new envExact cfgBase)
        [EmitterOp.update 1 fun _ => samp0]).1.particles.length = cfgBase.capacity ∧
      (0 : ℕ) ≤ cfgBase.capacity := by
  have h := emitter_capacity_invariant envExact cfgBase [EmitterOp.update 1 fun _ => samp0]
  refine ⟨h.1, h.2 0 ?_⟩
  have hidle := Emitter.Update_idle envExact 1 (fun _ => samp0) (Emitter.new envExact cfgBase)
    rfl (new_all_inactive envExact cfgBase)
  simp [Emitter.runTrace, hidle]

/-- C8: on an emitter on which `Burst` is never called and whose
emitting flag is off at every `Update` (`Start` never called, or `Stop`
called before any `Update`), every `Update` call returns 0 and every
pool slot stays inactive, for any number of calls and any `dt`s. -/
theorem idle_emitter_never_activates (env : MathEnv) (cfg : EmitterConfig)
    (ops : List EmitterOp) (h : neverEmittingFrom false ops = true) :
    (∀ c ∈ (Emitter.runTrace env (Emitter.new env cfg) ops).2, c = 0) ∧
      ∀ p ∈ (Emitter.runTrace env (Emitter.new env cfg) ops).1.particles, p.active = false :=
  runTrace_never_emitting env ops (Emitter.new env cfg) h (new_all_inactive env cfg)

/-- Witness for C8: a concrete `Stop`-then-`Update`-twice run on a
fresh emitter returns only zero counts and leaves all slots inactive. -/
theorem idle_emitter_never_activates_witness :
    (∀ c ∈ (Emitter.runTrace envExact (Emitter.new envExact cfgBase)
        [EmitterOp.stop, EmitterOp.update 1 fun _ => samp0,
         EmitterOp.update 2 fun _ => samp0]).2, c = 0) ∧
      ∀ p ∈ (Emitter.runTrace envExact (Emitter.new envExact cfgBase)
        [EmitterOp.stop, EmitterOp.update 1 fun _ => samp0,
         EmitterOp.update 2 fun _ => samp0]).1.particles, p.active = false :=
  idle_emitter_never_activates envExact cfgBase
    [EmitterOp.stop, EmitterOp.update 1 fun _ => samp0, EmitterOp.update 2 fun _ => samp0] rfl

/-- C10: the counter `Emitter::Update` returns counts every slot that
was active when the traversal reached it — even a slot whose age
increment expires it during this very call — plus the slots spawned
this call; consequently the returned value can strictly exceed the
number of particles still active after the call, as the concrete
one-particle emitter `eOne` updated past its ttl shows. -/
theorem update_counts_expiring_slots :
    (∀ (env : MathEnv) (dt : ℚ) (samp : ℕ → InitSamples) (e : Emitter),
      (Emitter.Update env dt samp e).1 =
        countActive e.particles +
          spawnQuota e.isEmitting
            (ratTruncToNat (e.mustEmit + dt * (e.config.emissionRate : ℚ))) e.particles ∧
        countActive (Emitter.Update env dt samp e).2.particles ≤
          (Emitter.Update env dt samp e).1) ∧
      countActive (Emitter.Update envExact 2 (fun _ => samp0) eOne).2.particles <
        (Emitter.Update envExact 2 (fun _ => samp0) eOne).1 := by
  constructor
  · intro env dt samp e
    refine ⟨Emitter.Update_counter env dt samp e, ?_⟩
    rw [Emitter.Update_counter]
    exact Emitter.Update_activeAfter env dt samp e
  · norm_num [Emitter.Update, Emitter.updateLoop, eOne, cfgBase, pExpireSoon,
      Particle.Update, Particle.IsExpired, countActive, ratTruncToNat, spawnQuota,
      countInactive]

/-- C3 counterexample: on a fresh 2-slot pool (2 inactive slots) with a
drawn burst amount of 0, `Burst` activates one particle, not
`min(0, inactiveCount) = 0`: the loop checks `++emitted >= amount` only
after it has already initialized a slot. -/
theorem burst_zero_amount_counterexample :
    countActive (Emitter.Burst envExact 0 (fun _ => samp0)
        (Emitter.new envExact cfgBase)).particles = 1 ∧
      min (size_tOfInt 0) (countInactive (Emitter.new envExact cfgBase).particles) = 0 := by
  constructor
  · decide
  · norm_num [size_tOfInt, countInactive, Emitter.new, cfgBase, Particle.zero,
      List.replicate]

/-- C3 (amended): for a drawn burst amount `a ≥ 0` (a C `int`, hence
below `2^31`), `Burst` rewrites the pool exactly as the spec's
ascending scan with quota `max a 1` — so it activates exactly
`min (max a 1) inactiveCount` particles (one particle, not zero, when
the drawn amount is 0 and a free slot exists), initializes only the
first such inactive slots in index order, never touches an already
active slot, and never pushes the active count past the capacity. -/
theorem burst_activates_min (env : MathEnv) (amount : ℤ) (samp : ℕ → InitSamples)
    (e : Emitter) (h0 : 0 ≤ amount) (h31 : amount < 2 ^ 31)
    (hcap : e.particles.length = e.config.capacity) :
    (Emitter.Burst env amount samp e).particles =
        Emitter.burstSpecScan env e.config samp (max amount.toNat 1) e.particles 0 ∧
      countActive (Emitter.Burst env amount samp e).particles =
        countActive e.particles + min (max amount.toNat 1) (countInactive e.particles) ∧
      List.Forall₂ (fun p q => p.active = true → q = p) e.particles
        (Emitter.Burst env amount samp e).particles ∧
      countActive (Emitter.Burst env amount samp e).particles ≤ e.config.capacity := by
  have hsize : size_tOfInt amount = amount.toNat := by
    unfold size_tOfInt
    rw [Int.emod_eq_of_lt h0 (by omega)]
  refine ⟨?_, ?_, ?_, ?_⟩
  · show Emitter.burstLoop env e.config samp (size_tOfInt amount) e.particles 0 = _
    rw [hsize]
    exact burstLoop_eq_specScan env e.config samp amount.toNat e.particles 0 (by omega)
  · show countActive (Emitter.burstLoop env e.config samp (size_tOfInt amount)
      e.particles 0) = _
    rw [hsize, burstLoop_countActive]
    omega
  · exact burstLoop_preserves_active env e.config samp (size_tOfInt amount) e.particles 0
  · show countActive (Emitter.burstLoop env e.config samp (size_tOfInt amount)
      e.particles 0) ≤ _
    rw [hsize, burstLoop_countActive]
    have hpart := countActive_add_countInactive e.particles
    have hmin : min (max (amount.toNat - 0) 1) (countInactive e.particles) ≤
        countInactive e.particles := min_le_right _ _
    omega

/-- Witness for C3 (amended) at drawn amount 1 on a fresh 2-slot pool:
hypotheses hold and `Burst` activates exactly `min 1 2 = 1` particle. -/
theorem burst_activates_min_witness :
    ((0 : ℤ) ≤ 1 ∧ (1 : ℤ) < 2 ^ 31 ∧
        (Emitter.new envExact cfgBase).particles.length =
          (Emitter.new envExact cfgBase).config.capacity) ∧
      countActive (Emitter.Burst envExact 1 (fun _ => samp0)
          (Emitter.new envExact cfgBase)).particles =
        countActive (Emitter.new envExact cfgBase).particles +
          min (max (1 : ℤ).toNat 1)
            (countInactive (Emitter.new envExact cfgBase).particles) :=
  ⟨⟨by decide, by decide, by decide⟩,
    (burst_activates_min envExact 1 (fun _ => samp0) (Emitter.new envExact cfgBase)
      (by decide) (by decide) (by decide)).2.1⟩

theorem ratTruncToNat_eq_natFloor (q : ℚ) (hq : 0 ≤ q) : ratTruncToNat q = ⌊q⌋₊ := by
  have h2 : (q.num.toNat : ℤ) = q.num := Int.toNat_of_nonneg (Rat.num_nonneg.mpr hq)
  have h1 : ((q.num.toNat : ℚ) / (q.den : ℚ)) = q := by
    rw [show ((q.num.toNat : ℚ)) = ((q.num : ℚ)) by
      exact_mod_cast congrArg (fun z : ℤ => (z : ℚ)) h2]
    exact Rat.num_div_den q
  unfold ratTruncToNat
  rw [← Rat.natFloor_natCast_div_natCast q.num.toNat q.den, h1]

theorem Emitter.spawnCount_eq (env : MathEnv) (dt : ℚ) (samp : ℕ → InitSamples)
    (e : Emitter) :
    Emitter.spawnCount env dt samp e =
      spawnQuota e.isEmitting
        (ratTruncToNat (e.mustEmit + dt * (e.config.emissionRate : ℚ))) e.particles := by
  unfold Emitter.spawnCount
  rw [Emitter.Update_counter]
  omega

/-- C4: for an emitting emitter with a nonnegative accumulator and
enough inactive slots for the whole frame's spawn budget, one `Update`
with elapsed time `dt` spawns exactly as many particles as two `Update`
calls with `dt / 2` each: the fractional accumulator `mustEmit`
persists across frames, and only whole units are consumed per spawn. -/
theorem update_split_spawn_count (env : MathEnv) (dt : ℚ)
    (samp samp1 samp2 : ℕ → InitSamples) (e : Emitter)
    (hem : e.isEmitting = true) (hdt : 0 ≤ dt) (hm : 0 ≤ e.mustEmit)
    (hcap : ratTruncToNat (e.mustEmit + dt * (e.config.emissionRate : ℚ)) ≤
      countInactive e.particles) :
    Emitter.spawnCount env dt samp e =
      Emitter.spawnCount env (dt / 2) samp1 e +
        Emitter.spawnCount env (dt / 2) samp2 (Emitter.Update env (dt / 2) samp1 e).2 := by
  have hr : (0 : ℚ) ≤ (e.config.emissionRate : ℚ) := by positivity
  set r : ℚ := (e.config.emissionRate : ℚ) with hrdef
  set m : ℚ := e.mustEmit with hmdef
  have hM : 0 ≤ m + dt * r := by positivity
  have hM1 : 0 ≤ m + dt / 2 * r := by positivity
  have hle : m + dt / 2 * r ≤ m + dt * r := by nlinarith
  set B : ℕ := ⌊m + dt * r⌋₊ with hBdef
  set B1 : ℕ := ⌊m + dt / 2 * r⌋₊ with hB1def
  have htr : ratTruncToNat (m + dt * r) = B := ratTruncToNat_eq_natFloor _ hM
  have htr1 : ratTruncToNat (m + dt / 2 * r) = B1 := ratTruncToNat_eq_natFloor _ hM1
  have hB1B : B1 ≤ B := Nat.floor_mono hle
  rw [htr] at hcap
  set A : ℕ := countActive e.particles with hAdef
  set I : ℕ := countInactive e.particles with hIdef
  have hpart := countActive_add_countInactive e.particles
  -- the whole-dt call spawns B
  have hwhole : Emitter.spawnCount env dt samp e = B := by
    rw [Emitter.spawnCount_eq, hem, ← hrdef, ← hmdef, htr]
    simp only [spawnQuota, if_true, ← hIdef]
    omega
  -- the first half-dt call spawns B1
  have hhalf1 : Emitter.spawnCount env (dt / 2) samp1 e = B1 := by
    rw [Emitter.spawnCount_eq, hem, ← hrdef, ← hmdef, htr1]
    simp only [spawnQuota, if_true, ← hIdef]
    omega
  -- state of the emitter after the first half-dt call
  have hem1 : (Emitter.Update env (dt / 2) samp1 e).2.isEmitting = true := by
    rw [Emitter.Update_isEmitting, hem]
  have hmust1 : (Emitter.Update env (dt / 2) samp1 e).2.mustEmit =
      m + dt / 2 * r - (B1 : ℚ) := by
    rw [Emitter.Update_mustEmit env (dt / 2) samp1 e hem, ← hrdef, ← hmdef, htr1]
    simp only [spawnQuota, if_true, ← hIdef]
    rw [min_eq_left (le_trans hB1B hcap)]
  have hlen1 : (Emitter.Update env (dt / 2) samp1 e).2.particles.length =
      e.particles.length := Emitter.Update_length env (dt / 2) samp1 e
  have hactive1 : countActive (Emitter.Update env (dt / 2) samp1 e).2.particles ≤ A + B1 := by
    have h := Emitter.Update_activeAfter env (dt / 2) samp1 e
    rw [hem, ← hrdef, ← hmdef, htr1] at h
    simp only [spawnQuota, if_true, ← hIdef, ← hAdef] at h
    omega
  have hpart1 := countActive_add_countInactive (Emitter.Update env (dt / 2) samp1 e).2.particles
  have hinactive1 : I - B1 ≤ countInactive (Emitter.Update env (dt / 2) samp1 e).2.particles := by
    omega
  -- the second half-dt call spawns B - B1
  have hB1le : (B1 : ℚ) ≤ m + dt / 2 * r := Nat.floor_le hM1
  have hsub : 0 ≤ m + dt * r - (B1 : ℚ) := by linarith
  have harg : m + dt / 2 * r - (B1 : ℚ) + dt / 2 * r = m + dt * r - (B1 : ℚ) := by ring
  have htr2 : ratTruncToNat (m + dt * r - (B1 : ℚ)) = B - B1 := by
    rw [ratTruncToNat_eq_natFloor _ hsub, Nat.floor_sub_nat]
  have hhalf2 : Emitter.spawnCount env (dt / 2) samp2
      (Emitter.Update env (dt / 2) samp1 e).2 = B - B1 := by
    rw [Emitter.spawnCount_eq, hem1, Emitter.Update_config, ← hrdef, hmust1, harg, htr2]
    simp only [spawnQuota, if_true]
    omega
  rw [hwhole, hhalf1, hhalf2]
  omega

/-- Witness for C4: on the fresh emitting 2-slot emitter with emission
rate 1, the hypotheses hold for `dt = 1`, and one whole-second update
spawns the same number of particles as two half-second updates. -/
theorem update_split_spawn_count_witness :
    (eEmit.isEmitting = true ∧ (0 : ℚ) ≤ 1 ∧ 0 ≤ eEmit.mustEmit ∧
        ratTruncToNat (eEmit.mustEmit + 1 * (eEmit.config.emissionRate : ℚ)) ≤
          countInactive eEmit.particles) ∧
      Emitter.spawnCount envExact 1 (fun _ => samp0) eEmit =
        Emitter.spawnCount envExact (1 / 2) (fun _ => samp0) eEmit +
          Emitter.spawnCount envExact (1 / 2) (fun _ => samp0)
            (Emitter.Update envExact (1 / 2) (fun _ => samp0) eEmit).2 := by
  have h1 : eEmit.isEmitting = true := rfl
  have h2 : (0 : ℚ) ≤ 1 := by norm_num
  have h3 : (0 : ℚ) ≤ eEmit.mustEmit := by
    norm_num [eEmit, Emitter.Start, Emitter.new]
  have h4 : ratTruncToNat (eEmit.mustEmit + 1 * (eEmit.config.emissionRate : ℚ)) ≤
      countInactive eEmit.particles := by
    norm_num [eEmit, Emitter.Start, Emitter.new, cfgBase, ratTruncToNat, countInactive,
      List.replicate, Particle.zero]
  exact ⟨⟨h1, h2, h3, h4⟩,
    update_split_spawn_count envExact 1 (fun _ => samp0) (fun _ => samp0) (fun _ => samp0)
      eEmit h1 h2 h3 h4⟩

theorem castUChar_natCast (n : ℕ) : castUChar ((n : ℚ)) = n := by
  unfold castUChar ratTruncToNat
  rw [Rat.num_natCast, Rat.den_natCast]
  simp

/-- C5: particle expiry is the strict comparison `age > ttl` — a
particle whose age exactly equals its ttl is not expired — and the
`Update` step whose age increment expires a particle only advances the
age and clears the active flag, returning before any physics: position,
velocity and scale are unchanged on the expiry frame. -/
theorem expiry_strict_and_untouched (env : MathEnv) (dt : ℚ) (cfg : EmitterConfig)
    (p : Particle) :
    (p.age = p.ttl → p.IsExpired = false) ∧
      (p.active = true → p.ttl < p.age + dt →
        Particle.Update env dt cfg p = { p with age := p.age + dt, active := false }) := by
  constructor
  · intro h
    simp [Particle.IsExpired, h]
  · intro hact hexp
    simp [Particle.Update, hact, Particle.IsExpired, hexp]

/-- Witness for C5: a particle at `age = ttl = 1` is not expired, and a
particle with `ttl = 10` stepped by `dt = 11` is deactivated with its
position, velocity and scale untouched. -/
theorem expiry_strict_and_untouched_witness :
    pBoundary.IsExpired = false ∧
      Particle.Update envExact 11 cfgBase pAttract =
        { pAttract with age := pAttract.age + 11, active := false } :=
  ⟨(expiry_strict_and_untouched envExact 0 cfgBase pBoundary).1 rfl,
    (expiry_strict_and_untouched envExact 11 cfgBase pAttract).2 rfl
      (by norm_num [pAttract])⟩

/-- C6: on a non-expiring update step with `collision = true`, whenever
the vertical coordinate after position integration is at or below 0,
the vertical position is clamped to exactly 0 and the vertical velocity
is multiplied by exactly `-0.5` (the other components are kept); with
`collision = false` the integrated position and velocity are kept with
no clamping or damping. -/
theorem collision_clamps_and_damps (env : MathEnv) (dt : ℚ) (cfg : EmitterConfig)
    (p : Particle) (hact : p.active = true) (hlive : ¬p.ttl < p.age + dt) :
    (cfg.collision = true → (Particle.integratedPosition env dt cfg p).y ≤ 0 →
      (Particle.Update env dt cfg p).position =
          { Particle.integratedPosition env dt cfg p with y := 0 } ∧
        (Particle.Update env dt cfg p).velocity =
          { Particle.integratedVelocity env dt cfg p with
              y := (Particle.integratedVelocity env dt cfg p).y * (-(1 : ℚ) / 2) }) ∧
      (cfg.collision = false →
        (Particle.Update env dt cfg p).position = Particle.integratedPosition env dt cfg p ∧
          (Particle.Update env dt cfg p).velocity = Particle.integratedVelocity env dt cfg p) := by
  constructor
  · intro hcol hy
    have hy' : (Vector3Add p.position
        (Vector3Scale (Particle.integratedVelocity env dt cfg p) dt)).y ≤ 0 := by
      simpa [Particle.integratedPosition] using hy
    simp only [Particle.integratedPosition]
    simp [Particle.Update, hact, Particle.IsExpired, hlive, hcol,
      Particle.integratedVelocity, hy']
    simp only [Particle.integratedVelocity] at hy'
    constructor <;> (intro h; exfalso; linarith)
  · intro hcol
    simp [Particle.Update, hact, Particle.IsExpired, hlive, hcol,
      Particle.integratedVelocity, Particle.integratedPosition]

/-- Witness for C6: the falling particle `pFall` under a
collision-enabled configuration integrates to height `-1 ≤ 0`; the
update clamps its height to 0 and turns its vertical velocity `-1` into
`1/2`. -/
theorem collision_clamps_and_damps_witness :
    (Particle.integratedPosition envExact 1 { cfgBase with collision := true } pFall).y ≤ 0 ∧
      (Particle.Update envExact 1 { cfgBase with collision := true } pFall).position =
          { Particle.integratedPosition envExact 1
              { cfgBase with collision := true } pFall with y := 0 } ∧
        (Particle.Update envExact 1 { cfgBase with collision := true } pFall).velocity =
          { Particle.integratedVelocity envExact 1
              { cfgBase with collision := true } pFall with
              y := (Particle.integratedVelocity envExact 1
                { cfgBase with collision := true } pFall).y * (-(1 : ℚ) / 2) } := by
  have hy : (Particle.integratedPosition envExact 1
      { cfgBase with collision := true } pFall).y ≤ 0 := by
    norm_num [Particle.integratedPosition, Particle.integratedVelocity, pFall, cfgBase,
      Vector3Add, Vector3Scale, Vector3Subtract, Vector3Normalize, envExact, ratSqrt]
  exact ⟨hy,
    (collision_clamps_and_damps envExact 1 { cfgBase with collision := true } pFall rfl
      (by norm_num [pFall])).1 rfl hy⟩

/-- C2 counterexample: `pAttract` sits at the coordinate origin with
zero velocity, unit attraction strength, no gravity and no external
force, and stores spawn origin `(1,0,0)`; with the emitter origin moved
to `(-1,0,0)`, the claimed live-origin attraction would add a unit
vector toward `(-1,0,0)` to the velocity, but the code's update
accelerates toward the frozen spawn origin instead, so the resulting
velocity differs from the claimed one. -/
theorem attraction_live_origin_counterexample :
    (Particle.Update envExact 1 { cfgBase with origin := ⟨-1, 0, 0⟩ } pAttract).velocity ≠
      Vector3Add pAttract.velocity
        (Vector3Scale
          (Vector3Normalize envExact
            (Vector3Subtract (⟨-1, 0, 0⟩ : Vec3) pAttract.position))
          (pAttract.originAcceleration * 1)) := by
  norm_num [Particle.Update, Particle.IsExpired, pAttract, cfgBase, Vector3Add,
    Vector3Scale, Vector3Subtract, Vector3Normalize, Vector3Distance, envExact, ratSqrt]

/-- C2 (amended): the attraction target of an already-spawned particle
is frozen at spawn time, not read live: `Init` stores the emitter
origin of that moment in the particle; the velocity and position
computed by `Update` are entirely independent of the live
`config.origin` (which only the derived scale reads); and on a
non-expiring, non-colliding step the new velocity is the old one plus
gravity, plus `originAcceleration * dt` along the unit vector from the
current position toward the *stored* origin, plus the external
acceleration. -/
theorem attraction_frozen_origin (env : MathEnv) (dt : ℚ) (cfg : EmitterConfig)
    (o : Vec3) (s : InitSamples) (p : Particle) :
    (Particle.Init env cfg s).origin = cfg.origin ∧
      ((Particle.Update env dt { cfg with origin := o } p).velocity =
          (Particle.Update env dt cfg p).velocity ∧
        (Particle.Update env dt { cfg with origin := o } p).position =
          (Particle.Update env dt cfg p).position) ∧
      (p.active = true → ¬p.ttl < p.age + dt → cfg.collision = false →
        (Particle.Update env dt cfg p).velocity =
          Particle.integratedVelocity env dt cfg p) := by
  refine ⟨rfl, ⟨?_, ?_⟩, ?_⟩
  · by_cases hact : p.active = false
    · simp [Particle.Update, hact]
    · by_cases hexp : p.ttl < p.age + dt <;>
        simp [Particle.Update, hact, Particle.IsExpired, hexp]
  · by_cases hact : p.active = false
    · simp [Particle.Update, hact]
    · by_cases hexp : p.ttl < p.age + dt <;>
        simp [Particle.Update, hact, Particle.IsExpired, hexp]
  · intro hact hlive hcol
    simp [Particle.Update, hact, Particle.IsExpired, hlive, hcol,
      Particle.integratedVelocity]

/-- Witness for C2 (amended) on `pAttract`: spawn capture, live-origin
independence of the motion state, and the frozen-origin attraction
formula, all at the concrete moved-origin configuration. -/
theorem attraction_frozen_origin_witness :
    (Particle.Init envExact cfgBase samp0).origin = cfgBase.origin ∧
      ((Particle.Update envExact 1 { cfgBase with origin := ⟨-1, 0, 0⟩ } pAttract).velocity =
          (Particle.Update envExact 1 cfgBase pAttract).velocity ∧
        (Particle.Update envExact 1 { cfgBase with origin := ⟨-1, 0, 0⟩ } pAttract).position =
          (Particle.Update envExact 1 cfgBase pAttract).position) ∧
      (Particle.Update envExact 1 cfgBase pAttract).velocity =
        Particle.integratedVelocity envExact 1 cfgBase pAttract := by
  have h := attraction_frozen_origin envExact 1 cfgBase ⟨-1, 0, 0⟩ samp0 pAttract
  exact ⟨h.1, h.2.1, h.2.2 rfl (by norm_num [pAttract]) rfl⟩

theorem LinearFade_zero (c1 c2 : Color) : Emitter.LinearFade c1 c2 0 = c1 := by
  unfold Emitter.LinearFade fadeChannel
  simp only [mul_zero, zero_add]
  rw [castUChar_natCast, castUChar_natCast, castUChar_natCast, castUChar_natCast]

theorem LinearFade_one (c1 c2 : Color) : Emitter.LinearFade c1 c2 1 = c2 := by
  unfold Emitter.LinearFade fadeChannel
  have h : ∀ a b : ℕ, ((b : ℚ) - (a : ℚ)) * 1 + (a : ℚ) = (b : ℚ) := by
    intro a b
    ring
  rw [h, h, h, h, castUChar_natCast, castUChar_natCast, castUChar_natCast, castUChar_natCast]

/-- C7: the tint `Draw` hands to `DrawModel` for an active particle is
the per-channel linear interpolation between the start and the end
color at fraction `age / ttl`: the pre-cast channel value is the affine
map `(1 - f) * start + f * end`, at `age = 0` the rendered color equals
the start color exactly in all four channels, and at `age = ttl` (for
`ttl > 0`, i.e. fraction 1) it equals the end color exactly. -/
theorem draw_color_linear (cfg : EmitterConfig) (p : Particle) (a b : ℕ) (f : ℚ) :
    Emitter.drawColor cfg p =
        Emitter.LinearFade cfg.startColor cfg.endColor (p.age / p.ttl) ∧
      fadeChannel a b f = (1 - f) * (a : ℚ) + f * (b : ℚ) ∧
      (p.age = 0 → Emitter.drawColor cfg p = cfg.startColor) ∧
      (0 < p.ttl → p.age = p.ttl → Emitter.drawColor cfg p = cfg.endColor) := by
  refine ⟨rfl, by unfold fadeChannel; ring, ?_, ?_⟩
  · intro h
    unfold Emitter.drawColor
    rw [h, zero_div, LinearFade_zero]
  · intro httl hage
    unfold Emitter.drawColor
    rw [hage, div_self (ne_of_gt httl), LinearFade_one]

/-- Witness for C7: `pFall` (age 0) renders exactly the start color and
`pBoundary` (age = ttl = 1) exactly the end color of `cfgBase`. -/
theorem draw_color_linear_witness :
    Emitter.drawColor cfgBase pFall = cfgBase.startColor ∧
      Emitter.drawColor cfgBase pBoundary = cfgBase.endColor :=
  ⟨(draw_color_linear cfgBase pFall 0 0 0).2.2.1 rfl,
    (draw_color_linear cfgBase pBoundary 0 0 0).2.2.2 (by norm_num [pBoundary]) rfl⟩
